import Mathlib

/-!
Verification of the Chatrix real-time messaging core: a shallow embedding of
the client chat state store (`src/store/chat-store.ts`), the realtime
transport service (`RealtimeService`), and the shared-secret encryption
wrappers (`src/lib/advanced-crypto.ts`), together with proofs of the
specified properties.

Conventions of the embedding:
* JavaScript `Record<string, T>` objects become association lists
  `List (String × T)`; updating an existing key rewrites the first entry in
  place, adding a new key appends at the end (JS insertion order).
* JavaScript numbers used as timestamps, lengths and counters are `Nat`.
* Byte strings (`Uint8Array`) are `List Nat`.
* Asynchronous effects (current time, fresh ids, random nonces, transport
  outcome) are threaded as explicit parameters.
-/

namespace Chatrix

/-- Message delivery status, from the `Message` type:
`'sending' | 'sent' | 'delivered' | 'read' | 'failed'`. -/
inductive MessageStatus where
  | sending
  | sent
  | delivered
  | read
  | failed
deriving DecidableEq, Repr

/-- The `Message` entity (fields of `types/message.ts` used by the core). -/
structure Message where
  id : String
  sender : String
  senderUsername : Option String
  recipient : String
  content : String
  encrypted : Option (List Nat)
  nonce : List Nat
  timestamp : Nat
  status : MessageStatus
  messageType : String
deriving DecidableEq, Repr

/-- The `Chat` entity (fields used by the core). -/
structure Chat where
  id : String
  type : String
  participants : List String
  createdBy : String
  createdAt : Nat
  lastActivity : Nat
  unreadCount : Nat
  isPinned : Bool
  isMuted : Bool
  isArchived : Bool
  lastMessage : Option Message
deriving DecidableEq, Repr

/-- The `Peer` entity (fields used by the core). -/
structure Peer where
  publicKey : String
  username : Option String
  lastSeen : Nat
  messageCount : Nat
  isOnline : Bool
  status : String
deriving DecidableEq, Repr

/-- The `UserProfile` entity (fields used by the core). -/
structure UserProfile where
  publicKey : String
  username : String
deriving DecidableEq, Repr

/-- A `Partial<Message>` update object as passed to `updateMessage`:
each field is either absent (`none`) or overrides the message's field. -/
structure MessageUpdate where
  content : Option String := none
  status : Option MessageStatus := none
deriving DecidableEq, Repr

/-- Spread-merge `{ ...msg, ...updates }` of a partial update into a message. -/
def applyUpdate (m : Message) (u : MessageUpdate) : Message :=
  { m with
    content := u.content.getD m.content
    status := u.status.getD m.status }

/-- Read a key of a JS record modelled as an association list
(first entry with the key wins). -/
def lookupKey {α : Type} : List (String × α) → String → Option α
  | [], _ => none
  | e :: rest, k => if e.1 = k then some e.2 else lookupKey rest k

/-- Write a key of a JS record modelled as an association list:
`{ ...record, [k]: v }` rewrites the first entry holding `k`, or appends a
fresh entry at the end when `k` is absent. -/
def setKey {α : Type} : List (String × α) → String → α → List (String × α)
  | [], k, v => [(k, v)]
  | e :: rest, k, v => if e.1 = k then (k, v) :: rest else e :: setKey rest k v

/-- The slice of the zustand `ChatState` owned by the store and relevant to
the core (entity collections, blocked set, key cache, persistence fields). -/
structure ChatStore where
  currentUser : Option UserProfile
  chats : List Chat
  messages : List (String × List Message)
  activeChat : Option String
  drafts : List (String × String)
  peers : List Peer
  blockedUsers : List String
  encryptionKeys : List (String × List Nat)
  lastSyncTimestamp : Nat
deriving DecidableEq, Repr

/-- The stored message list of one chat, as read by the store's actions:
`state.messages[chatId] || []`. -/
def msgsOf (st : ChatStore) (chatId : String) : List Message :=
  (lookupKey st.messages chatId).getD []

/-- The comparator of `addMessage`/`setMessages`:
`(a, b) => a.timestamp - b.timestamp`, ascending order of timestamps. -/
def tsLe (a b : Message) : Bool := decide (a.timestamp ≤ b.timestamp)

/-- `addChat(chat)`: appends the chat and creates its empty message list. -/
def addChatOp (st : ChatStore) (chat : Chat) : ChatStore :=
  { st with
    chats := st.chats ++ [chat]
    messages := setKey st.messages chat.id [] }

/-- `addPeer(peer)`: merges into an existing peer record by `publicKey`,
or appends a new one. -/
def addPeerOp (st : ChatStore) (peer : Peer) : ChatStore :=
  if st.peers.any (fun p => p.publicKey = peer.publicKey) then
    { st with peers := st.peers.map (fun p =>
        if p.publicKey = peer.publicKey then peer else p) }
  else
    { st with peers := st.peers ++ [peer] }

/-- `addMessage(chatId, message)`: appends to the chat's list and re-sorts it
by ascending timestamp (JS `sort` is stable, modelled by `List.mergeSort`),
then updates the parent chat's `lastMessage`/`lastActivity` and bumps
`unreadCount` unless the chat is the active one. -/
def addMessageOp (st : ChatStore) (chatId : String) (message : Message) : ChatStore :=
  let chatMessages := msgsOf st chatId
  { st with
    messages := setKey st.messages chatId
      ((chatMessages ++ [message]).mergeSort tsLe)
    chats := st.chats.map (fun chat =>
      if chat.id = chatId then
        { chat with
          lastMessage := some message
          lastActivity := message.timestamp
          unreadCount := if st.activeChat = some chat.id then 0
                         else chat.unreadCount + 1 }
      else chat) }

/-- `updateMessage(chatId, messageId, updates)`: maps the spread-merge over
the chat's list, touching only messages whose id matches. -/
def updateMessageOp (st : ChatStore) (chatId messageId : String)
    (u : MessageUpdate) : ChatStore :=
  { st with
    messages := setKey st.messages chatId
      ((msgsOf st chatId).map (fun msg =>
        if msg.id = messageId then applyUpdate msg u else msg)) }

/-- `removeMessage(chatId, messageId)`: filters the chat's list by id. -/
def removeMessageOp (st : ChatStore) (chatId messageId : String) : ChatStore :=
  { st with
    messages := setKey st.messages chatId
      ((msgsOf st chatId).filter (fun msg => msg.id ≠ messageId)) }

/-- `blockUser(userId)`: adds to the blocked set
(`new Set([...blockedUsers, userId])`, a set insert). -/
def blockUserOp (st : ChatStore) (userId : String) : ChatStore :=
  { st with blockedUsers :=
      if userId ∈ st.blockedUsers then st.blockedUsers
      else st.blockedUsers ++ [userId] }

/-- `unblockUser(userId)`: deletes from the blocked set. -/
def unblockUserOp (st : ChatStore) (userId : String) : ChatStore :=
  { st with blockedUsers := st.blockedUsers.filter (fun u => u ≠ userId) }

/-- Lexicographic comparison of character sequences by code point, the order
underlying JavaScript's default `Array.prototype.sort()` on strings. -/
def charsLe : List Char → List Char → Bool
  | [], _ => true
  | _ :: _, [] => false
  | a :: as, b :: bs =>
    if a.toNat < b.toNat then true
    else if b.toNat < a.toNat then false
    else charsLe as bs

/-- String comparison used by `[x, y].sort()` in the chat-id computations. -/
def strLe (a b : String) : Bool := charsLe a.data b.data

/-- `[a, b].sort()` on a two-element string array: the pair in ascending
lexicographic order. -/
def sortPair (a b : String) : String × String :=
  if strLe a b then (a, b) else (b, a)

/-- The direct-chat id synthesized by inbound routing in
`initializeRealtime`: participants sorted lexicographically, joined as
`direct_<first>_<second>`. -/
def inboundDirectChatId (selfId senderId : String) : String :=
  let participants := sortPair selfId senderId
  "direct_" ++ participants.1 ++ "_" ++ participants.2

/-- The direct-chat id computed by the explicit `createDirectChat` path:
the same sorted-join of the two participant identifiers. -/
def createDirectChatId (myKey peerKey : String) : String :=
  let sortedParticipants := sortPair myKey peerKey
  "direct_" ++ sortedParticipants.1 ++ "_" ++ sortedParticipants.2

/-- Inbound message routing: the `onMessage` handler installed by
`initializeRealtime`. Finds the direct chat between the current user and the
sender; when none exists, synthesizes a chat (sorted-id) and, if the sender
is unknown, a peer record; finally routes the message into the resolved
chat. The handler performs no check of `blockedUsers`. -/
def routeIncoming (st : ChatStore) (selfId : String) (incoming : Message)
    (now : Nat) : ChatStore :=
  let senderId := incoming.sender
  match st.chats.find? (fun c =>
      c.type = "direct" ∧ selfId ∈ c.participants ∧ senderId ∈ c.participants) with
  | some chat => addMessageOp st chat.id incoming
  | none =>
    let chatId := inboundDirectChatId selfId senderId
    let newChat : Chat :=
      { id := chatId
        type := "direct"
        participants := [selfId, senderId]
        createdBy := senderId
        createdAt := now
        lastActivity := now
        unreadCount := 0
        isPinned := false
        isMuted := false
        isArchived := false
        lastMessage := none }
    let st1 := addChatOp st newChat
    let st2 :=
      if st.peers.any (fun p => p.publicKey = senderId) then st1
      else addPeerOp st1
        { publicKey := senderId
          username := incoming.senderUsername
          lastSeen := now
          messageCount := 0
          isOnline := true
          status := "online" }
    addMessageOp st2 chatId incoming

/-! ### Encryption layer

`AdvancedCrypto.encryptWithSharedSecret` / `decryptWithSharedSecret` wrap
the nacl `secretbox` authenticated cipher and the UTF-8 / base58 codecs.
Those primitives are external libraries, not part of this repository, so
they are modelled from the spec's CryptoEngine contract (§4.1): encryption
is an invertible keystream masking plus an authentication tag that verifies
only under the exact key and nonce used to encrypt; decryption fails with a
sentinel (`none`) when the tag does not verify. The bijective base58 wire
encoding is elided (byte lists are carried directly). -/

/-- Modelled from the spec: one byte of the keystream that nacl
`secretbox` derives from the 32-byte key and 24-byte nonce. -/
def keystream (k n : List Nat) (i : Nat) : Nat :=
  (k.getD (i % 32) 0 + 31 * n.getD (i % 24) 0 + 17 * i) % 256

/-- Modelled from the spec: keystream masking of a byte sequence starting
at stream position `i`; XOR makes it an involution under the same key and
nonce. -/
def maskFrom (k n : List Nat) (i : Nat) : List Nat → List Nat
  | [] => []
  | b :: bs => (b ^^^ keystream k n i) :: maskFrom k n (i + 1) bs

/-- Modelled from the spec: the authentication tag over a ciphertext.  The
idealization of authenticated encryption: the tag binds the exact key and
nonce (and a digest of the ciphertext), so verification under any other
key fails. -/
def tagBytes (k n c : List Nat) : List Nat :=
  k ++ n ++ [c.foldl (fun a b => (a + b) % 256) 0]

/-- Modelled from the spec: nacl `secretbox(message, nonce, key)` —
authenticated ciphertext: tag followed by the masked message. -/
def secretbox (m n k : List Nat) : List Nat :=
  tagBytes k n (maskFrom k n 0 m) ++ maskFrom k n 0 m

/-- Modelled from the spec: nacl `secretbox.open(ciphertext, nonce, key)` —
recomputes the tag under the supplied key; on mismatch returns `none`
(authentication failure), otherwise unmasks the payload. -/
def secretboxOpen (c n k : List Nat) : Option (List Nat) :=
  let tagLen := k.length + n.length + 1
  if c.take tagLen = tagBytes k n (c.drop tagLen) then
    some (maskFrom k n 0 (c.drop tagLen))
  else
    none

/-- Modelled from the spec: `@stablelib/utf8` `encode` — the injective
serialization of a string to a byte sequence (carried as code points). -/
def encodeUTF8 (s : String) : List Nat := s.data.map Char.toNat

/-- Modelled from the spec: `@stablelib/utf8` `decode`, inverse of
`encodeUTF8` on its range. -/
def decodeUTF8 (bs : List Nat) : String := String.mk (bs.map Char.ofNat)

/-- The `EncryptedData` result of `encryptWithSharedSecret`
(base58 elided: `encrypted` and `nonce` are byte lists). -/
structure EncryptedData where
  encrypted : List Nat
  nonce : List Nat
  algorithm : String
  version : String
deriving DecidableEq, Repr

/-- `AdvancedCrypto.encryptWithSharedSecret(message, sharedSecret)`.
The nonce, freshly random in the source (`randomBytes(secretbox.nonceLength)`),
is threaded as an explicit parameter. -/
def encryptWithSharedSecret (message : String) (nonce : List Nat)
    (sharedSecret : List Nat) : EncryptedData :=
  { encrypted := secretbox (encodeUTF8 message) nonce sharedSecret
    nonce := nonce
    algorithm := "nacl-secretbox"
    version := "2.0" }

/-- `AdvancedCrypto.decryptWithSharedSecret(encryptedData, sharedSecret)`:
opens the box and decodes; any failure yields the sentinel `none`
(the source catches exceptions and returns `null`). -/
def decryptWithSharedSecret (encryptedData : EncryptedData)
    (sharedSecret : List Nat) : Option String :=
  (secretboxOpen encryptedData.encrypted encryptedData.nonce sharedSecret).map
    decodeUTF8

/-! ### Outbound send flow (`sendEncryptedMessage`) -/

/-- Outcome of the awaited `realtimeService.sendMessage` call: the promise
either resolves or rejects. -/
inductive TransportResult where
  | ok
  | failed
deriving DecidableEq, Repr

/-- The mock shared key `new Uint8Array(32)` installed when no cached key
exists for the recipient. -/
def mockSharedKey : List Nat := List.replicate 32 0

/-- The local `Message` record constructed by `sendEncryptedMessage`:
status `'sending'`, plaintext stored locally, ciphertext and nonce from the
encryption step. -/
def mkOutgoingMessage (u : UserProfile) (content recipientKey msgId : String)
    (now : Nat) (nonce : List Nat) (sharedKey : List Nat) : Message :=
  let encryptedData := encryptWithSharedSecret content nonce sharedKey
  { id := msgId
    sender := u.publicKey
    senderUsername := some u.username
    recipient := recipientKey
    content := content
    encrypted := some encryptedData.encrypted
    nonce := encryptedData.nonce
    timestamp := now
    status := MessageStatus.sending
    messageType := "text" }

/-- The state of `sendEncryptedMessage` after the optimistic local append
(key cache update, encryption, `addMessage` with status `'sending'`) and
before the transport call completes. -/
def sendOptimistic (st : ChatStore) (u : UserProfile)
    (chatId content recipientKey msgId : String) (now : Nat)
    (nonce : List Nat) : ChatStore :=
  let sharedKey := (lookupKey st.encryptionKeys recipientKey).getD mockSharedKey
  let st1 :=
    if (lookupKey st.encryptionKeys recipientKey).isSome then st
    else { st with encryptionKeys := setKey st.encryptionKeys recipientKey mockSharedKey }
  addMessageOp st1 chatId (mkOutgoingMessage u content recipientKey msgId now nonce sharedKey)

/-- `sendEncryptedMessage(chatId, content, recipientKey)`: throws without a
current user; otherwise appends the message optimistically with status
`'sending'`, then awaits the transport call — on resolution updates the
status to `'sent'`, on rejection rethrows the error (the catch block
performs no state change, so no `'failed'` transition exists on this path).
Fresh id, current time, random nonce and the transport outcome are threaded
as parameters. -/
def sendEncryptedMessage (st : ChatStore)
    (chatId content recipientKey msgId : String) (now : Nat)
    (nonce : List Nat) (tr : TransportResult) :
    ChatStore × Except String Unit :=
  match st.currentUser with
  | none => (st, Except.error "No current user")
  | some u =>
    let st2 := sendOptimistic st u chatId content recipientKey msgId now nonce
    match tr with
    | TransportResult.ok =>
      (updateMessageOp st2 chatId msgId { status := some MessageStatus.sent },
        Except.ok ())
    | TransportResult.failed =>
      (st2, Except.error "Failed to send encrypted message")

/-! ### Transport layer (`RealtimeService`) -/

/-- The payload object built by `RealtimeService.sendMessage`. -/
structure RTData where
  messageId : String
  content : String
  senderUsername : Option String
  messageType : String
  timestamp : Nat
deriving DecidableEq, Repr

/-- The wire envelope `RealtimeMessage`
(`from`/`to` renamed `fromId`/`toId`: `from` is reserved in Lean). -/
structure RTMessage where
  id : String
  type : String
  fromId : String
  toId : String
  data : RTData
  timestamp : Nat
deriving DecidableEq, Repr

/-- The transport-relevant state of a `RealtimeService` instance: the socket
connection flag, the FIFO offline queue, and the transcript of envelopes
handed to `socket.emit` (in emission order). -/
structure RTState where
  connected : Bool
  messageQueue : List RTMessage
  sent : List RTMessage
deriving DecidableEq, Repr

/-- The envelope `sendMessage` constructs from its arguments. -/
def mkEnvelope (currentUser content recipient msgId : String) (now : Nat)
    (senderUsername : Option String) : RTMessage :=
  { id := msgId
    type := "message"
    fromId := currentUser
    toId := recipient
    data :=
      { messageId := msgId
        content := content
        senderUsername := senderUsername
        messageType := "text"
        timestamp := now }
    timestamp := now }

/-- `RealtimeService.sendMessage`: emits immediately when connected,
otherwise appends the envelope to the offline queue; resolves with the
message id either way. -/
def sendMessageRT (st : RTState) (currentUser content recipient msgId : String)
    (now : Nat) (senderUsername : Option String) : RTState × String :=
  let env := mkEnvelope currentUser content recipient msgId now senderUsername
  if st.connected then
    ({ st with sent := st.sent ++ [env] }, msgId)
  else
    ({ st with messageQueue := st.messageQueue ++ [env] }, msgId)

/-- The `while` loop of `processMessageQueue`: repeatedly `shift`s the head
of the queue and emits it. -/
def drainLoop : List RTMessage → List RTMessage → List RTMessage × List RTMessage
  | [], sent => ([], sent)
  | m :: rest, sent => drainLoop rest (sent ++ [m])

/-- `RealtimeService.processMessageQueue`: drains the offline queue in FIFO
order through `sendRealtimeMessage`, run on the socket's `connect` event. -/
def processMessageQueue (st : RTState) : RTState :=
  let result := drainLoop st.messageQueue st.sent
  { st with messageQueue := result.1, sent := result.2 }

/-- Reconnect bookkeeping of `RealtimeService`
(`reconnectAttempts`, `maxReconnectAttempts = 5`). -/
structure ReconnectState where
  reconnectAttempts : Nat
  maxReconnectAttempts : Nat
deriving DecidableEq, Repr

/-- The backoff delay computed for a given attempt number:
`Math.min(1000 * Math.pow(2, attempt), 30000)`. -/
def reconnectDelay (attempt : Nat) : Nat :=
  min (1000 * 2 ^ attempt) 30000

/-- `RealtimeService.scheduleReconnect`: while the attempt budget is not
exhausted, increments the counter and schedules a reconnect after the
backoff delay (returned as `some delay`); once the maximum is reached it
does nothing (`none` — no further attempt is scheduled). -/
def scheduleReconnect (st : ReconnectState) : ReconnectState × Option Nat :=
  if st.reconnectAttempts < st.maxReconnectAttempts then
    ({ st with reconnectAttempts := st.reconnectAttempts + 1 },
      some (reconnectDelay (st.reconnectAttempts + 1)))
  else
    (st, none)

/-! ### Persistence (`partialize`) -/

/-- The shape of the persisted local snapshot produced by the `persist`
middleware's `partialize`. -/
structure PersistedSnapshot where
  currentUser : Option UserProfile
  chats : List Chat
  messages : List (String × List Message)
  peers : List Peer
  drafts : List (String × String)
  encryptionKeys : List (String × List Nat)
  lastSyncTimestamp : Nat
deriving DecidableEq, Repr

/-- `partialize(state)`: the persisted snapshot — user profile, chats,
messages, peers, drafts and last-sync timestamp are carried over, while
`encryptionKeys` is always written as the empty record. -/
def partialize (st : ChatStore) : PersistedSnapshot :=
  { currentUser := st.currentUser
    chats := st.chats
    messages := st.messages
    peers := st.peers
    drafts := st.drafts
    encryptionKeys := []
    lastSyncTimestamp := st.lastSyncTimestamp }

/-! ### Association-list record lemmas -/

theorem lookupKey_setKey {α : Type} (m : List (String × α)) (k : String) (v : α) :
    lookupKey (setKey m k v) k = some v := by
  induction m with
  | nil => simp [setKey, lookupKey]
  | cons e rest ih =>
    by_cases h : e.1 = k
    · simp [setKey, h, lookupKey]
    · simp [setKey, h, lookupKey, ih]

theorem setKey_of_lookup_some {α : Type} {m : List (String × α)} {k : String}
    {v : α} (h : lookupKey m k = some v) : setKey m k v = m := by
  induction m with
  | nil => simp [lookupKey] at h
  | cons e rest ih =>
    by_cases he : e.1 = k
    · obtain ⟨k', v'⟩ := e
      simp only at he
      subst he
      have hv : v' = v := by simpa [lookupKey] using h
      simp [setKey, hv]
    · simp only [lookupKey, he, if_neg, not_false_iff] at h
      simp [setKey, he, ih h]

theorem setKey_of_lookup_none {α : Type} {m : List (String × α)} {k : String}
    (v : α) (h : lookupKey m k = none) : setKey m k v = m ++ [(k, v)] := by
  induction m with
  | nil => simp [setKey]
  | cons e rest ih =>
    by_cases he : e.1 = k
    · simp [lookupKey, he] at h
    · simp only [lookupKey, he, if_neg, not_false_iff] at h
      simp [setKey, he, ih h]

/-! ### Sortedness of stored message sequences -/

/-- The per-chat ordering invariant: timestamps ascending. -/
def tsSorted (l : List Message) : Prop :=
  l.Pairwise (fun a b => a.timestamp ≤ b.timestamp)

theorem tsSorted_mergeSort (l : List Message) : tsSorted (l.mergeSort tsLe) := by
  have h := @List.sorted_mergeSort Message tsLe
    (fun a b c hab hbc => by
      simp only [tsLe, decide_eq_true_eq] at *
      omega)
    (fun a b => by
      simp only [tsLe, Bool.or_eq_true, decide_eq_true_eq]
      omega)
    l
  exact h.imp (fun hab => by simpa [tsLe] using hab)

theorem msgsOf_addMessageOp (st : ChatStore) (chatId : String) (m : Message) :
    msgsOf (addMessageOp st chatId m) chatId
      = (msgsOf st chatId ++ [m]).mergeSort tsLe := by
  simp [addMessageOp, msgsOf, lookupKey_setKey]

/-- A sequence of `addMessage` calls on one chat, applied in order. -/
def addMessages (st : ChatStore) (chatId : String) (msgs : List Message) : ChatStore :=
  msgs.foldl (fun s m => addMessageOp s chatId m) st

/-- The store with every collection empty (the zustand initial state). -/
def emptyStore : ChatStore :=
  { currentUser := none
    chats := []
    messages := []
    activeChat := none
    drafts := []
    peers := []
    blockedUsers := []
    encryptionKeys := []
    lastSyncTimestamp := 0 }

/-- A minimal text message, for concrete instantiations. -/
def mkMsg (msgId sender : String) (ts : Nat) : Message :=
  { id := msgId
    sender := sender
    senderUsername := none
    recipient := "r"
    content := "hello"
    encrypted := none
    nonce := []
    timestamp := ts
    status := MessageStatus.sent
    messageType := "text" }

/-- After every single `addMessage` call — from any prior store state —
the stored list of that chat is timestamp-ascending. -/
theorem addMessageOp_tsSorted (st : ChatStore) (chatId : String) (m : Message) :
    tsSorted (msgsOf (addMessageOp st chatId m) chatId) := by
  rw [msgsOf_addMessageOp]
  exact tsSorted_mergeSort _

/-- C1: for every chat id and every sequence of `addMessage(chatId, message)`
calls on that chat, after each call (i.e. after the first `i + 1` calls, for
every `i`) the stored message list of that chat is sorted in ascending order
of message timestamp, regardless of the order in which the messages were
added and of the initial store state. -/
theorem addMessage_sorted_after_each_call (st : ChatStore) (chatId : String)
    (msgs : List Message) (i : Nat) (h : i < msgs.length) :
    tsSorted (msgsOf (addMessages st chatId (msgs.take (i + 1))) chatId) := by
  have hne : msgs.take (i + 1) ≠ [] := by
    have : (msgs.take (i + 1)).length = min (i + 1) msgs.length := msgs.length_take (i + 1)
    intro hcon
    rw [hcon] at this
    simp at this
    omega
  obtain ⟨l, m, hl⟩ := (msgs.take (i + 1)).eq_nil_or_concat.resolve_left hne
  rw [hl]
  simp only [addMessages, List.concat_eq_append, List.foldl_append,
    List.foldl_cons, List.foldl_nil]
  exact addMessageOp_tsSorted _ chatId m

/-- Witness for C1: two messages added out of timestamp order; after the
second call the stored sequence is sorted. -/
theorem addMessage_sorted_after_each_call_witness :
    1 < ([mkMsg "a" "s" 5, mkMsg "b" "s" 3] : List Message).length ∧
    tsSorted (msgsOf (addMessages emptyStore "c"
      (([mkMsg "a" "s" 5, mkMsg "b" "s" 3] : List Message).take 2)) "c") :=
  ⟨by decide, addMessage_sorted_after_each_call emptyStore "c"
    [mkMsg "a" "s" 5, mkMsg "b" "s" 3] 1 (by decide)⟩

/-! ### Symmetry of the direct-chat id -/

theorem charsLe_total : ∀ as bs : List Char, charsLe as bs = true ∨ charsLe bs as = true
  | [], _ => Or.inl rfl
  | _ :: _, [] => Or.inr rfl
  | a :: as, b :: bs => by
    by_cases h1 : a.toNat < b.toNat
    · left
      simp [charsLe, h1]
    · by_cases h2 : b.toNat < a.toNat
      · right
        simp [charsLe, h2]
      · rcases charsLe_total as bs with h | h
        · left
          simp [charsLe, h1, h2, h]
        · right
          simp [charsLe, h1, h2, h]

theorem charsLe_antisymm : ∀ as bs : List Char,
    charsLe as bs = true → charsLe bs as = true → as = bs
  | [], [] => fun _ _ => rfl
  | [], _ :: _ => fun _ h2 => by simp [charsLe] at h2
  | _ :: _, [] => fun h1 _ => by simp [charsLe] at h1
  | a :: as, b :: bs => fun h1 h2 => by
    by_cases hab : a.toNat < b.toNat
    · have hba : ¬ b.toNat < a.toNat := by omega
      simp [charsLe, hab, hba] at h2
    · by_cases hba : b.toNat < a.toNat
      · simp [charsLe, hab, hba] at h1
      · have htail : as = bs :=
          charsLe_antisymm as bs
            (by simpa [charsLe, hab, hba] using h1)
            (by simpa [charsLe, hab, hba] using h2)
        have hnat : a.toNat = b.toNat := by omega
        have head : a = b := by
          have := congrArg Char.ofNat hnat
          rwa [Char.ofNat_toNat, Char.ofNat_toNat] at this
        rw [head, htail]

theorem strLe_total (a b : String) : strLe a b = true ∨ strLe b a = true :=
  charsLe_total a.data b.data

theorem strLe_antisymm {a b : String} (h1 : strLe a b = true)
    (h2 : strLe b a = true) : a = b := by
  cases a with
  | mk da =>
    cases b with
    | mk db =>
      have : da = db := charsLe_antisymm da db h1 h2
      rw [this]

theorem sortPair_comm (a b : String) : sortPair a b = sortPair b a := by
  by_cases h1 : strLe a b = true
  · by_cases h2 : strLe b a = true
    · have : a = b := strLe_antisymm h1 h2
      rw [this]
    · simp [sortPair, h1, h2]
  · have h2 : strLe b a = true := (strLe_total a b).resolve_left h1
    simp [sortPair, h1, h2]

/-- C2: for distinct participant identifiers `A` and `B`, the direct-chat id
is the same whichever side initiates: both the inbound-routing synthesis and
the explicit `createDirectChat` path compute `direct_` followed by the two
identifiers sorted lexicographically and joined, a pure function of the
unordered pair. -/
theorem directChatId_initiator_independent (A B : String) (h : A ≠ B) :
    inboundDirectChatId A B = inboundDirectChatId B A ∧
    createDirectChatId A B = createDirectChatId B A ∧
    inboundDirectChatId A B = createDirectChatId A B := by
  refine ⟨?_, ?_, rfl⟩ <;>
    simp [inboundDirectChatId, createDirectChatId, sortPair_comm A B]

/-- Witness for C2: the two identifiers "alice" and "bob". -/
theorem directChatId_initiator_independent_witness :
    ("alice" : String) ≠ "bob" ∧
    inboundDirectChatId "alice" "bob" = inboundDirectChatId "bob" "alice" :=
  ⟨by decide, (directChatId_initiator_independent "alice" "bob" (by decide)).1⟩

/-! ### Persistence excludes key material -/

/-- C10: for every store state, the persisted snapshot carries exactly the
current user profile, chats, messages, peers, drafts and last-sync
timestamp, and its `encryptionKeys` entry is always the empty record —
whatever keys are cached in memory, no key material is persisted. -/
theorem partialize_excludes_keys (st : ChatStore) :
    (partialize st).encryptionKeys = [] ∧
    (partialize st).currentUser = st.currentUser ∧
    (partialize st).chats = st.chats ∧
    (partialize st).messages = st.messages ∧
    (partialize st).peers = st.peers ∧
    (partialize st).drafts = st.drafts ∧
    (partialize st).lastSyncTimestamp = st.lastSyncTimestamp :=
  ⟨rfl, rfl, rfl, rfl, rfl, rfl, rfl⟩

/-! ### Offline queue: FIFO, drained exactly once -/

theorem drainLoop_spec : ∀ (queue sent : List RTMessage),
    drainLoop queue sent = ([], sent ++ queue)
  | [], sent => by simp [drainLoop]
  | m :: rest, sent => by
    rw [drainLoop, drainLoop_spec rest (sent ++ [m])]
    simp

/-- C7: an envelope handed to `sendMessage` while the transport is not
connected is appended to the FIFO offline queue (nothing is emitted); and
`processMessageQueue` — run on reconnection — emits every queued envelope
exactly once, in enqueue order, after the previously emitted traffic,
leaving the queue empty. -/
theorem offline_queue_fifo (st : RTState) (currentUser content recipient msgId : String)
    (now : Nat) (senderUsername : Option String)
    (h : st.connected = false) :
    (sendMessageRT st currentUser content recipient msgId now senderUsername).1.messageQueue
      = st.messageQueue ++ [mkEnvelope currentUser content recipient msgId now senderUsername] ∧
    (sendMessageRT st currentUser content recipient msgId now senderUsername).1.sent
      = st.sent ∧
    (processMessageQueue st).sent = st.sent ++ st.messageQueue ∧
    (processMessageQueue st).messageQueue = [] := by
  refine ⟨?_, ?_, ?_, ?_⟩ <;>
    simp [sendMessageRT, h, processMessageQueue, drainLoop_spec]

/-- Witness for C7: a disconnected transport with one queued envelope;
a further send joins the queue behind it and draining emits both in order. -/
theorem offline_queue_fifo_witness :
    ({ connected := false
       messageQueue := [mkEnvelope "u" "first" "r" "m1" 1 none]
       sent := [] } : RTState).connected = false ∧
    (processMessageQueue
      { connected := false
        messageQueue := [mkEnvelope "u" "first" "r" "m1" 1 none]
        sent := [] }).sent
      = [] ++ [mkEnvelope "u" "first" "r" "m1" 1 none] :=
  ⟨rfl, (offline_queue_fifo
    { connected := false
      messageQueue := [mkEnvelope "u" "first" "r" "m1" 1 none]
      sent := [] } "u" "second" "r" "m2" 2 none rfl).2.2.1⟩

/-! ### Reconnect backoff -/

/-- C8: the reconnect backoff delay is non-decreasing across consecutive
failed attempts, doubles per attempt up to the 30-second cap, and once the
configured maximum attempt count has been reached `scheduleReconnect`
schedules no further attempt. -/
theorem reconnect_backoff_policy :
    (∀ i j : Nat, i ≤ j → reconnectDelay i ≤ reconnectDelay j) ∧
    (∀ i : Nat, reconnectDelay i ≤ 30000) ∧
    (∀ st : ReconnectState, st.maxReconnectAttempts ≤ st.reconnectAttempts →
      scheduleReconnect st = (st, none)) ∧
    (∀ st : ReconnectState, st.reconnectAttempts < st.maxReconnectAttempts →
      scheduleReconnect st =
        ({ st with reconnectAttempts := st.reconnectAttempts + 1 },
          some (reconnectDelay (st.reconnectAttempts + 1)))) := by
  refine ⟨fun i j hij => ?_, fun i => ?_, fun st hst => ?_, fun st hst => ?_⟩
  · have : 1000 * 2 ^ i ≤ 1000 * 2 ^ j :=
      Nat.mul_le_mul_left 1000 (Nat.pow_le_pow_right (by omega) hij)
    simp only [reconnectDelay]
    omega
  · simp only [reconnectDelay]
    omega
  · simp [scheduleReconnect, Nat.not_lt.mpr hst]
  · simp [scheduleReconnect, hst]

/-- Witness for C8: consecutive attempts 1 ≤ 2 have non-decreasing delays,
and at the exhausted budget (5 of 5) nothing further is scheduled. -/
theorem reconnect_backoff_policy_witness :
    reconnectDelay 1 ≤ reconnectDelay 2 ∧
    scheduleReconnect { reconnectAttempts := 5, maxReconnectAttempts := 5 }
      = ({ reconnectAttempts := 5, maxReconnectAttempts := 5 }, none) :=
  ⟨reconnect_backoff_policy.1 1 2 (by decide),
    reconnect_backoff_policy.2.2.1
      { reconnectAttempts := 5, maxReconnectAttempts := 5 } (by decide)⟩

/-! ### Mutating an absent message -/

/-- Counterexample to C9: when the chat has no message list at all,
`updateMessage` does not leave the store state unchanged — writing the
mapped list back materializes an empty message list under that chat id
(an observable change to the `messages` record, e.g. in the persisted
snapshot), even though no message is touched. -/
theorem updateMessage_absent_chat_changes_state :
    lookupKey emptyStore.messages "c" = none ∧
    updateMessageOp emptyStore "c" "m" {} ≠ emptyStore ∧
    (updateMessageOp emptyStore "c" "m" {}).messages = [("c", [])] := by
  refine ⟨rfl, ?_, rfl⟩
  intro hcon
  have : (updateMessageOp emptyStore "c" "m" {}).messages = emptyStore.messages :=
    congrArg ChatStore.messages hcon
  simp [updateMessageOp, emptyStore, msgsOf, lookupKey, setKey] at this

/-- C9 (amended): `updateMessage(chatId, messageId, updates)` and
`removeMessage(chatId, messageId)` with a message id absent from the chat
never modify or remove any message and never raise an error: when the chat
has a message list the store is left entirely unchanged, and when the chat
has no message list the only change is that an empty message list is
materialized under that chat id. -/
theorem update_remove_absent_message_noop (st : ChatStore)
    (chatId messageId : String) (u : MessageUpdate) :
    (∀ l, lookupKey st.messages chatId = some l →
      (∀ m ∈ l, m.id ≠ messageId) →
      updateMessageOp st chatId messageId u = st ∧
      removeMessageOp st chatId messageId = st) ∧
    (lookupKey st.messages chatId = none →
      updateMessageOp st chatId messageId u
        = { st with messages := st.messages ++ [(chatId, [])] } ∧
      removeMessageOp st chatId messageId
        = { st with messages := st.messages ++ [(chatId, [])] }) := by
  constructor
  · intro l hl hid
    have hm : msgsOf st chatId = l := by simp [msgsOf, hl]
    constructor
    · have hmap : l.map (fun msg =>
          if msg.id = messageId then applyUpdate msg u else msg) = l := by
        conv_rhs => rw [← List.map_id l]
        exact List.map_congr_left (fun m hm' => by simp [hid m hm'])
      simp [updateMessageOp, hm, hmap, setKey_of_lookup_some hl]
    · have hfil : l.filter (fun msg => !decide (msg.id = messageId)) = l :=
        List.filter_eq_self.mpr (fun m hm' => by simp [hid m hm'])
      simp [removeMessageOp, hm, hfil, setKey_of_lookup_some hl]
  · intro hl
    have hm : msgsOf st chatId = [] := by simp [msgsOf, hl]
    constructor
    · simp [updateMessageOp, hm, setKey_of_lookup_none _ hl]
    · simp [removeMessageOp, hm, setKey_of_lookup_none _ hl]

/-- Witness for C9 (amended): a chat holding one message; updating a
message id that is not present leaves the store unchanged. -/
theorem update_remove_absent_message_noop_witness :
    lookupKey ({ emptyStore with
        messages := [("c", [mkMsg "m1" "s" 1])] } : ChatStore).messages "c"
      = some [mkMsg "m1" "s" 1] ∧
    updateMessageOp { emptyStore with messages := [("c", [mkMsg "m1" "s" 1])] }
        "c" "zzz" {}
      = { emptyStore with messages := [("c", [mkMsg "m1" "s" 1])] } :=
  ⟨rfl, ((update_remove_absent_message_noop
      { emptyStore with messages := [("c", [mkMsg "m1" "s" 1])] } "c" "zzz" {}).1
      [mkMsg "m1" "s" 1] rfl (by decide)).1⟩

/-! ### Blocked users and inbound routing -/

/-- A store whose current user has blocked "mallory". -/
def blockedStore : ChatStore :=
  { emptyStore with
    currentUser := some { publicKey := "self", username := "me" }
    blockedUsers := ["mallory"] }

/-- An inbound message from the blocked sender. -/
def malloryMsg : Message := mkMsg "mm" "mallory" 7

unseal List.merge List.mergeSort in
/-- Counterexample to C4: the `onMessage` routing handler never consults the
blocked-user set — an inbound message from a blocked sender still creates a
chat, creates a peer record, and is added to the chat. -/
theorem blocked_sender_still_routed :
    "mallory" ∈ blockedStore.blockedUsers ∧
    (routeIncoming blockedStore "self" malloryMsg 7).chats.length = 1 ∧
    (routeIncoming blockedStore "self" malloryMsg 7).peers.length = 1 ∧
    msgsOf (routeIncoming blockedStore "self" malloryMsg 7) "direct_mallory_self"
      = [malloryMsg] := by
  refine ⟨by decide, by decide, by decide, by decide⟩

theorem routeIncoming_blockedUsers_free (st : ChatStore) (S : List String)
    (selfId : String) (incoming : Message) (now : Nat) :
    routeIncoming { st with blockedUsers := S } selfId incoming now
      = { routeIncoming st selfId incoming now with blockedUsers := S } := by
  obtain ⟨cu, chats, msgs, ac, dr, prs, bu, ek, ts⟩ := st
  unfold routeIncoming
  simp only
  split
  · simp [addMessageOp, msgsOf]
  · by_cases hp : prs.any (fun p => p.publicKey = incoming.sender) = true
    · simp [hp, addChatOp, addMessageOp, msgsOf]
    · simp [hp, addChatOp, addPeerOp, addMessageOp, msgsOf]

/-- C4 (amended): the store maintains the blocked-user set through
`blockUser`/`unblockUser` (insert and delete), but inbound routing never
consults it: the routing outcome — chats, peers, messages — is the same for
every value of the blocked set, so a message from a blocked sender is routed
exactly like one from a never-blocked sender (and hence identically before
blocking, while blocked, and after `unblockUser`). -/
theorem routing_independent_of_blocked_set (st : ChatStore) (S1 S2 : List String)
    (selfId userId : String) (incoming : Message) (now : Nat) :
    routeIncoming { st with blockedUsers := S1 } selfId incoming now
      = { routeIncoming { st with blockedUsers := S2 } selfId incoming now with
          blockedUsers := S1 } ∧
    userId ∈ (blockUserOp st userId).blockedUsers ∧
    userId ∉ (unblockUserOp st userId).blockedUsers := by
  refine ⟨?_, ?_, ?_⟩
  · rw [routeIncoming_blockedUsers_free st S1 selfId incoming now,
      routeIncoming_blockedUsers_free st S2 selfId incoming now]
  · by_cases h : userId ∈ st.blockedUsers <;> simp [blockUserOp, h]
  · simp [unblockUserOp]

/-! ### Send flow status transitions -/

/-- A store with a current user and nothing else, for concrete send runs. -/
def sendStore : ChatStore :=
  { emptyStore with
    currentUser := some { publicKey := "self", username := "me" } }

unseal List.merge List.mergeSort in
/-- Counterexample to C3: when the transport call fails, `sendEncryptedMessage`
rethrows without any status update — the optimistically appended message
stays stored with status `'sending'`, never transitioning to `'failed'`. -/
theorem failed_send_leaves_status_sending :
    ((msgsOf (sendEncryptedMessage sendStore "c" "hi" "bob" "m1" 10 []
        TransportResult.failed).1 "c").map Message.status
      = [MessageStatus.sending]) ∧
    ((msgsOf (sendEncryptedMessage sendStore "c" "hi" "bob" "m1" 10 []
        TransportResult.failed).1 "c").map Message.status
      ≠ [MessageStatus.failed]) := by
  refine ⟨by decide, by decide⟩

/-- C3 (amended): with a current user set, `sendEncryptedMessage` appends a
message with status `'sending'` immediately (the optimistic update, present
before any transport outcome); when the transport call resolves, every
stored copy with that message id transitions to `'sent'`; when the transport
call fails, the error is rethrown and the message remains stored with
status `'sending'` — the flow contains no transition to `'failed'`. -/
theorem sendEncryptedMessage_status_transitions (st : ChatStore)
    (u : UserProfile) (chatId content recipientKey msgId : String) (now : Nat)
    (nonce : List Nat) (hu : st.currentUser = some u) :
    (∃ m ∈ msgsOf (sendOptimistic st u chatId content recipientKey msgId now nonce) chatId,
       m.id = msgId ∧ m.status = MessageStatus.sending) ∧
    (∀ m ∈ msgsOf (sendEncryptedMessage st chatId content recipientKey msgId now nonce
        TransportResult.ok).1 chatId,
       m.id = msgId → m.status = MessageStatus.sent) ∧
    (∃ m ∈ msgsOf (sendEncryptedMessage st chatId content recipientKey msgId now nonce
        TransportResult.failed).1 chatId,
       m.id = msgId ∧ m.status = MessageStatus.sending) ∧
    (sendEncryptedMessage st chatId content recipientKey msgId now nonce
        TransportResult.failed).2
      = Except.error "Failed to send encrypted message" := by
  have hopt : ∃ m ∈ msgsOf (sendOptimistic st u chatId content recipientKey msgId now nonce) chatId,
      m.id = msgId ∧ m.status = MessageStatus.sending := by
    refine ⟨mkOutgoingMessage u content recipientKey msgId now nonce
      ((lookupKey st.encryptionKeys recipientKey).getD mockSharedKey), ?_, rfl, rfl⟩
    unfold sendOptimistic
    rw [msgsOf_addMessageOp]
    exact (((_ : List Message).mergeSort_perm tsLe).mem_iff).mpr (by simp)
  refine ⟨hopt, ?_, ?_, ?_⟩
  · intro m hm hid
    simp only [sendEncryptedMessage, hu] at hm
    simp only [updateMessageOp, msgsOf, lookupKey_setKey, Option.getD_some] at hm
    obtain ⟨y, _, hy⟩ := List.mem_map.mp hm
    by_cases hyid : y.id = msgId
    · rw [if_pos hyid] at hy
      rw [← hy]
      rfl
    · rw [if_neg hyid] at hy
      rw [← hy] at hid
      exact absurd hid hyid
  · simpa only [sendEncryptedMessage, hu] using hopt
  · simp [sendEncryptedMessage, hu]

/-- Witness for C3 (amended): a concrete failed send from `sendStore`. -/
theorem sendEncryptedMessage_status_transitions_witness :
    sendStore.currentUser = some { publicKey := "self", username := "me" } ∧
    (sendEncryptedMessage sendStore "c" "hi" "bob" "m1" 10 []
        TransportResult.failed).2
      = Except.error "Failed to send encrypted message" :=
  ⟨rfl, (sendEncryptedMessage_status_transitions sendStore
    { publicKey := "self", username := "me" } "c" "hi" "bob" "m1" 10 [] rfl).2.2.2⟩

/-! ### Encrypt/decrypt round trip and wrong-key failure -/

theorem maskFrom_involutive (k n : List Nat) :
    ∀ (bs : List Nat) (i : Nat), maskFrom k n i (maskFrom k n i bs) = bs
  | [], _ => rfl
  | b :: bs, i => by
    rw [maskFrom, maskFrom, Nat.xor_cancel_right, maskFrom_involutive k n bs (i + 1)]

theorem tagBytes_length (k n c : List Nat) :
    (tagBytes k n c).length = k.length + n.length + 1 := by
  simp [tagBytes]
  omega

theorem take_append_self {α : Type} : ∀ (a b : List α), (a ++ b).take a.length = a
  | [], _ => rfl
  | x :: a, b => by rw [List.cons_append, List.length_cons, List.take_succ_cons,
      take_append_self a b]

theorem drop_append_self {α : Type} : ∀ (a b : List α), (a ++ b).drop a.length = b
  | [], _ => rfl
  | x :: a, b => by rw [List.cons_append, List.length_cons, List.drop_succ_cons,
      drop_append_self a b]

theorem decodeUTF8_encodeUTF8 (s : String) : decodeUTF8 (encodeUTF8 s) = s := by
  cases s with
  | mk data =>
    simp only [decodeUTF8, encodeUTF8, List.map_map]
    have : (Char.ofNat ∘ Char.toNat) = id := by
      funext c
      exact Char.ofNat_toNat c
    rw [this, List.map_id]

theorem secretboxOpen_secretbox (m n k : List Nat) :
    secretboxOpen (secretbox m n k) n k = some (maskFrom k n 0 (maskFrom k n 0 m)) := by
  unfold secretboxOpen secretbox
  have hlen : k.length + n.length + 1 = (tagBytes k n (maskFrom k n 0 m)).length :=
    (tagBytes_length k n (maskFrom k n 0 m)).symm
  rw [hlen]
  simp only [take_append_self, drop_append_self]
  simp

/-- C5: for every plaintext `m`, every 32-byte key `k` (and every nonce),
decrypting the result of `encryptWithSharedSecret(m, k)` with
`decryptWithSharedSecret` under the same key returns `m`. -/
theorem encrypt_decrypt_roundtrip (m : String) (nonce k : List Nat)
    (hk : k.length = 32) :
    decryptWithSharedSecret (encryptWithSharedSecret m nonce k) k = some m := by
  unfold decryptWithSharedSecret encryptWithSharedSecret
  simp only [secretboxOpen_secretbox, maskFrom_involutive]
  simp [decodeUTF8_encodeUTF8]

/-- Witness for C5: round trip of "hi" under an all-zero 32-byte key. -/
theorem encrypt_decrypt_roundtrip_witness :
    (List.replicate 32 0).length = 32 ∧
    decryptWithSharedSecret
      (encryptWithSharedSecret "hi" (List.replicate 24 1) (List.replicate 32 0))
      (List.replicate 32 0) = some "hi" :=
  ⟨by decide, encrypt_decrypt_roundtrip "hi" (List.replicate 24 1)
    (List.replicate 32 0) (by decide)⟩

/-- C6: a ciphertext produced under a 32-byte key `k`, decrypted under any
32-byte key `k' ≠ k`, never yields the original plaintext: the
authentication check fails and `decryptWithSharedSecret` returns the
failure sentinel `none` (no exception escapes — the operation is total). -/
theorem decrypt_wrong_key_fails (m : String) (nonce k k' : List Nat)
    (hk : k.length = 32) (hk' : k'.length = 32) (hne : k ≠ k') :
    decryptWithSharedSecret (encryptWithSharedSecret m nonce k) k' = none := by
  unfold decryptWithSharedSecret encryptWithSharedSecret secretboxOpen secretbox
  simp only
  have hlen2 : k'.length + nonce.length + 1
      = (tagBytes k nonce (maskFrom k nonce 0 (encodeUTF8 m))).length := by
    rw [tagBytes_length, hk, hk']
  rw [hlen2, take_append_self, drop_append_self]
  have hcond : tagBytes k nonce (maskFrom k nonce 0 (encodeUTF8 m))
      ≠ tagBytes k' nonce (maskFrom k nonce 0 (encodeUTF8 m)) := by
    intro heq
    apply hne
    unfold tagBytes at heq
    have h1 := (List.append_inj heq (by simp [hk, hk'])).1
    exact (List.append_inj h1 (by rw [hk, hk'])).1
  rw [if_neg hcond]
  rfl

/-- Witness for C6: decrypting under a key differing from the encrypting
key in its first byte returns the failure sentinel. -/
theorem decrypt_wrong_key_fails_witness :
    (List.replicate 32 0 : List Nat).length = 32 ∧
    (7 :: List.replicate 31 0 : List Nat).length = 32 ∧
    (List.replicate 32 0 : List Nat) ≠ 7 :: List.replicate 31 0 ∧
    decryptWithSharedSecret
      (encryptWithSharedSecret "hi" (List.replicate 24 1) (List.replicate 32 0))
      (7 :: List.replicate 31 0) = none :=
  ⟨by decide, by decide, by decide,
    decrypt_wrong_key_fails "hi" (List.replicate 24 1) (List.replicate 32 0)
      (7 :: List.replicate 31 0) (by decide) (by decide) (by decide)⟩

end Chatrix

